import Mathlib

/-!
Verification of the job-queue and scheduling core of the insta-dashboard
backend (src/backend/server.js).

The embedding below models the SQLite table `queue` as a list of rows and
each Express handler as a pure function from the current table (plus the
values the handler draws from its environment: the `makeId()` output, the
`new Date().toISOString()` timestamps) to a response and the new table.

Modelling conventions, each justified by the source:
* Timestamps are ISO-8601 strings stored in TEXT columns and compared by
  SQLite bytewise (`scheduledAt <= ?` at server.js:157); `textLe` below is
  that bytewise/lexicographic comparison on the char data.
* `makeId()` (server.js:54) is `Math.random().toString(36).slice(2, 10)`:
  a memoryless random draw with no record of past draws, so any 8-char
  base-36 string can be drawn again at any time.  Handlers therefore take
  the drawn id as an explicit input.
* A JSON body field that is absent or `null` is modelled as `none`; JS
  string falsiness (`!x`, `x || d`) treats the empty string like a missing
  value, captured by `jsFalsy` and `jsOr`.
* `db.run` on an INSERT that violates the `id TEXT PRIMARY KEY` constraint
  throws; the handler catch returns a 500 error and nothing is written.
* Store availability: except where a claim is about failures, `db` calls
  are modelled as succeeding; the scheduler tick additionally models a
  per-row `db.run` outcome so that a thrown error (caught by the single
  try/catch wrapping the whole loop, server.js:155-164) can be expressed.
-/

namespace InstaDashboard

/-- Bytewise (lexicographic) comparison of char lists, as SQLite compares
TEXT values. -/
def lexLe : List Char → List Char → Bool
  | [], _ => true
  | _ :: _, [] => false
  | a :: as, b :: bs =>
    if a.toNat < b.toNat then true
    else if b.toNat < a.toNat then false
    else lexLe as bs

/-- SQLite TEXT `<=` on ISO-8601 timestamp strings (server.js:157). -/
def textLe (a b : String) : Bool := lexLe a.data b.data

/-- JS falsiness of a string-valued JSON field: absent, `null`, or the
empty string. Used by the `if (!imageUrl)` style guards. -/
def jsFalsy : Option String → Bool
  | none => true
  | some s => s == ""

/-- JS `x || d` for a string-valued field `x`: yields `d` when `x` is
absent, `null` or empty (falsy), else the value of `x`. -/
def jsOr (x : Option String) (d : String) : String :=
  match x with
  | none => d
  | some s => if s == "" then d else s

/-- The `status` column only ever holds these three values
(`created` at server.js:94, `scheduled` at server.js:124,
`published` at server.js:109 and 160). -/
inductive Status
  | created
  | scheduled
  | published
deriving DecidableEq, Repr

/-- One row of the `queue` table (server.js:43-50).  `scheduledAt` is a
nullable TEXT column: rows inserted by create_media leave it NULL. -/
structure Job where
  id : String
  imageUrl : String
  caption : String
  scheduledAt : Option String
  status : Status
  createdAt : String
deriving DecidableEq, Repr

/-- The `queue` table. -/
abbrev Store := List Job

/-- Error responses the modelled handlers can produce:
`missingImageUrl` is the 400 `Missing imageUrl` (server.js:91, 120),
`missingCreationId` the 400 `Missing creation_id` (server.js:105),
`dbError` the 500 produced when `db.run` throws (e.g. a PRIMARY KEY
violation on INSERT). -/
inductive ApiError
  | missingImageUrl
  | missingCreationId
  | dbError
deriving DecidableEq, Repr

/-- Response of POST /api/create_media. -/
inductive CreateResp
  | err (e : ApiError)
  | ok (creation_id : String)
deriving DecidableEq, Repr

/-- Response of POST /api/publish_media. -/
inductive PublishResp
  | err (e : ApiError)
  | ok (id publishedAt : String)
deriving DecidableEq, Repr

/-- Response of POST /api/schedule. -/
inductive ScheduleResp
  | err (e : ApiError)
  | ok (jobId scheduledAt : String)
deriving DecidableEq, Repr

/-- Response of DELETE /api/queue/:id — the handler always answers
`{ ok: true }` (server.js:147). -/
inductive DeleteResp
  | okTrue
deriving DecidableEq, Repr

/-- Whether some row already holds this id (the PRIMARY KEY check the
INSERT runs into). -/
def hasId (s : Store) (x : String) : Bool := s.any (fun j => j.id == x)

/-- POST /api/create_media (server.js:89-100).
`newId` is the `makeId()` draw, `now` is `new Date().toISOString()`.
Guard: `if (!imageUrl)` returns 400. The INSERT names no `scheduledAt`
column, so the row stores NULL there; caption is `caption || ""`. An id
collision with a live row violates the PRIMARY KEY: `db.run` throws and
the catch returns 500, with nothing inserted. -/
def createMedia (s : Store) (newId now : String) (imageUrl caption : Option String) :
    CreateResp × Store :=
  if jsFalsy imageUrl then (.err .missingImageUrl, s)
  else if hasId s newId then (.err .dbError, s)
  else (.ok newId,
    s ++ [{ id := newId, imageUrl := imageUrl.getD "", caption := jsOr caption "",
            scheduledAt := none, status := .created, createdAt := now }])

/-- The statement `UPDATE queue SET status = ?, scheduledAt = ? WHERE id = ?`
with values `["published", pubAt, rowId]`, shared verbatim by
POST /api/publish_media (server.js:109) and the scheduler tick
(server.js:160).  Every row whose id matches — in particular regardless of
its current status — is rewritten; when no row matches, zero rows are
affected and the statement succeeds without error. -/
def setPublished (s : Store) (rowId pubAt : String) : Store :=
  s.map fun j =>
    if j.id = rowId then { j with status := .published, scheduledAt := some pubAt } else j

/-- POST /api/publish_media (server.js:103-115).
`postSuffix` is the `makeId()` draw for the fake post id, `now` is
`new Date().toISOString()`.  Guard: `if (!creation_id)` returns 400.
Otherwise the handler runs `setPublished` and unconditionally answers
`{ id: "post_" + makeId(), publishedAt: now }`; no Publisher capability is
ever invoked and no failure path other than a `db` error exists. -/
def publishMedia (s : Store) (creation_id : Option String) (postSuffix now : String) :
    PublishResp × Store :=
  if jsFalsy creation_id then (.err .missingCreationId, s)
  else (.ok ("post_" ++ postSuffix) now, setPublished s (creation_id.getD "") now)

/-- POST /api/schedule (server.js:118-130).
`defaultAt` models `new Date(Date.now() + 60*60*1000).toISOString()`, the
now-plus-one-hour default; `scheduledAt` is `scheduleTime || defaultAt`,
so an absent, null or empty `scheduleTime` is replaced by the default. -/
def schedule (s : Store) (newId now defaultAt : String)
    (imageUrl caption scheduleTime : Option String) : ScheduleResp × Store :=
  if jsFalsy imageUrl then (.err .missingImageUrl, s)
  else if hasId s newId then (.err .dbError, s)
  else
    (.ok newId (jsOr scheduleTime defaultAt),
     s ++ [{ id := newId, imageUrl := imageUrl.getD "", caption := jsOr caption "",
             scheduledAt := some (jsOr scheduleTime defaultAt), status := .scheduled,
             createdAt := now }])

/-- GET /api/queue (server.js:133-140): `SELECT * FROM queue ORDER BY
createdAt DESC`, modelled as sorting by descending `createdAt`. -/
def listQueue (s : Store) : List Job :=
  s.insertionSort (fun a b => textLe b.createdAt a.createdAt = true)

/-- DELETE /api/queue/:id (server.js:143-151): `DELETE FROM queue WHERE
id = ?`, then `{ ok: true }` regardless of how many rows matched. -/
def deleteJob (s : Store) (x : String) : DeleteResp × Store :=
  (.okTrue, s.filter (fun j => !(j.id == x)))

/-- The tick's SELECT predicate (server.js:157):
`status = "scheduled" AND scheduledAt <= now`.  A NULL `scheduledAt`
makes the comparison NULL, so the row is not selected. -/
def isDue (now : String) (j : Job) : Bool :=
  decide (j.status = Status.scheduled) &&
    (match j.scheduledAt with
     | some t => textLe t now
     | none => false)

/-- The rows the tick's SELECT returns for snapshot time `now`. -/
def dueJobs (s : Store) (now : String) : List Job := s.filter (isDue now)

/-- The tick's per-row loop (server.js:158-161) run from store `s` over
the list of rows the SELECT returned, with one `db.run` outcome per row:
`some pubAt` means the UPDATE ran, writing `new Date().toISOString() =
pubAt`; `none` means `db.run` threw.  The single try/catch wrapping the
whole loop (server.js:155-164) catches the error and ends the tick, so
the failing row and every row after it are left unprocessed. -/
def tickFrom : Store → List Job → List (Option String) → Store
  | s, [], _ => s
  | s, _ :: _, [] => s
  | s, _ :: _, none :: _ => s
  | s, r :: rs, some pubAt :: os => tickFrom (setPublished s r.id pubAt) rs os

/-- One scheduler tick (server.js:154-165): snapshot `now` once, SELECT
the due rows, then run the loop. -/
def tick (s : Store) (now : String) (outs : List (Option String)) : Store :=
  tickFrom s (dueJobs s now) outs

/-! Helper lemmas about the embedded operations. -/

theorem map_eq_self_of_forall_mem {s : Store} {f : Job → Job}
    (h : ∀ j ∈ s, f j = j) : s.map f = s := by
  induction s with
  | nil => rfl
  | cons a l ih =>
    simp only [List.map_cons, List.cons.injEq]
    exact ⟨h a (List.mem_cons_self a l), ih fun j hj => h j (List.mem_cons_of_mem a hj)⟩

theorem setPublished_mem_of_ne {s : Store} {j : Job} {x pubAt : String}
    (hj : j ∈ s) (hne : j.id ≠ x) : j ∈ setPublished s x pubAt :=
  List.mem_map.mpr ⟨j, hj, if_neg hne⟩

theorem setPublished_mem_of_eq {s : Store} {j : Job} {x pubAt : String}
    (hj : j ∈ s) (heq : j.id = x) :
    { j with status := Status.published, scheduledAt := some pubAt } ∈ setPublished s x pubAt :=
  List.mem_map.mpr ⟨j, hj, if_pos heq⟩

theorem setPublished_eq_self {s : Store} {x pubAt : String}
    (h : ∀ j ∈ s, j.id ≠ x) : setPublished s x pubAt = s :=
  map_eq_self_of_forall_mem fun j hj => if_neg (h j hj)

theorem tickFrom_mem_of_not_mem_ids (rows : List Job) :
    ∀ (outs : List (Option String)) (s : Store) (j : Job),
      j ∈ s → j.id ∉ rows.map Job.id → j ∈ tickFrom s rows outs := by
  induction rows with
  | nil => intro outs s j hj _; simpa [tickFrom] using hj
  | cons r rs ih =>
    intro outs s j hj hni
    simp only [List.map_cons, List.mem_cons, not_or] at hni
    match outs with
    | [] => simpa [tickFrom] using hj
    | none :: os => simpa [tickFrom] using hj
    | some pubAt :: os =>
      simp only [tickFrom]
      exact ih os _ j (setPublished_mem_of_ne hj hni.1) hni.2

theorem tickFrom_publishes (rows : List Job) :
    ∀ (pts : List String) (s : Store),
      (rows.map Job.id).Nodup → (∀ r ∈ rows, r ∈ s) →
      ∀ p ∈ rows.zip pts,
        { p.1 with status := Status.published, scheduledAt := some p.2 }
          ∈ tickFrom s rows (pts.map some) := by
  induction rows with
  | nil => intro pts s _ _ p hp; simp at hp
  | cons r rs ih =>
    intro pts s hnd hsub p hp
    simp only [List.map_cons, List.nodup_cons] at hnd
    match pts with
    | [] => simp at hp
    | pt :: pts' =>
      simp only [List.zip_cons_cons, List.mem_cons] at hp
      simp only [List.map_cons, tickFrom]
      rcases hp with heq | htail
      · subst heq
        apply tickFrom_mem_of_not_mem_ids rs (pts'.map some) _ _
          (setPublished_mem_of_eq (hsub r (List.mem_cons_self r rs)) rfl)
        simpa using hnd.1
      · exact ih pts' (setPublished s r.id pt) hnd.2
          (fun r' hr' => setPublished_mem_of_ne (hsub r' (List.mem_cons_of_mem r hr'))
            (fun hcontra => hnd.1 (hcontra ▸ List.mem_map_of_mem Job.id hr')))
          p htail

theorem exists_zip_of_mem {α β : Type} :
    ∀ (l1 : List α) (l2 : List β), l2.length = l1.length →
      ∀ a ∈ l1, ∃ b, (a, b) ∈ l1.zip l2 := by
  intro l1
  induction l1 with
  | nil => intro l2 _ a ha; simp at ha
  | cons x xs ih =>
    intro l2 hlen a ha
    match l2 with
    | [] => simp at hlen
    | y :: ys =>
      simp only [List.zip_cons_cons, List.mem_cons] at ha ⊢
      rcases ha with rfl | ha
      · exact ⟨y, Or.inl rfl⟩
      · obtain ⟨b, hb⟩ := ih ys (by simpa using hlen) a ha
        exact ⟨b, Or.inr hb⟩

theorem mem_listQueue {s : Store} {j : Job} : j ∈ listQueue s ↔ j ∈ s :=
  (List.perm_insertionSort _ s).mem_iff

theorem isDue_intro {now : String} {j : Job} {t : String}
    (h1 : j.status = Status.scheduled) (h2 : j.scheduledAt = some t)
    (h3 : textLe t now = true) : isDue now j = true := by
  simp [isDue, h1, h2, h3]

theorem mem_dueJobs {s : Store} {now : String} {j : Job} :
    j ∈ dueJobs s now ↔ j ∈ s ∧ isDue now j = true := List.mem_filter

theorem dueJobs_ids_nodup {s : Store} {now : String}
    (hnd : (s.map Job.id).Nodup) : ((dueJobs s now).map Job.id).Nodup :=
  List.Nodup.sublist (List.Sublist.map Job.id (List.filter_sublist s)) hnd

theorem hasId_eq_false_iff {s : Store} {x : String} :
    hasId s x = false ↔ ∀ j ∈ s, j.id ≠ x := by
  simp [hasId]

theorem tickFrom_stops_at_failure (rows1 : List Job) :
    ∀ (pts1 : List String) (rows2 : List Job) (outs2 : List (Option String)) (s : Store),
      pts1.length = rows1.length →
      tickFrom s (rows1 ++ rows2) (pts1.map some ++ none :: outs2)
        = tickFrom s rows1 (pts1.map some) := by
  induction rows1 with
  | nil =>
    intro pts1 rows2 outs2 s hlen
    match pts1 with
    | [] => cases rows2 <;> simp [tickFrom]
    | p :: ps => simp at hlen
  | cons r rs ih =>
    intro pts1 rows2 outs2 s hlen
    match pts1 with
    | [] => simp at hlen
    | p :: ps =>
      simp only [List.cons_append, List.map_cons, tickFrom]
      exact ih ps rows2 outs2 (setPublished s r.id p) (by simpa using hlen)

/-! Concrete jobs and stores used by the counterexamples and witnesses. -/

/-- A job scheduled for "T1", due at snapshot time "T3". -/
def jobA : Job :=
  { id := "a", imageUrl := "u", caption := "", scheduledAt := some "T1",
    status := .scheduled, createdAt := "T0" }

/-- A second job scheduled for "T2", due at snapshot time "T3". -/
def jobB : Job :=
  { id := "b", imageUrl := "u", caption := "", scheduledAt := some "T2",
    status := .scheduled, createdAt := "T0" }

/-- A store holding the two due jobs. -/
def storeAB : Store := [jobA, jobB]

/-- A single scheduled job with id "j1", due at snapshot time "T3". -/
def jobS : Job :=
  { id := "j1", imageUrl := "u", caption := "", scheduledAt := some "T2",
    status := .scheduled, createdAt := "T1" }

/-- A store holding only `jobS`. -/
def storeS : Store := [jobS]

/-- An already published job whose recorded publish time is "T5". -/
def jobPub : Job :=
  { id := "p1", imageUrl := "u", caption := "c", scheduledAt := some "T5",
    status := .published, createdAt := "T0" }

/-- A store holding only the published job. -/
def storePub : Store := [jobPub]

/-! Claim C1. -/

/-- Claim C1 is false on the code: the tick's UPDATE (server.js:160) is
conditioned on id only, not on `status = "scheduled"`.  Concrete
interleaving: `jobS` is due at snapshot "T3" and selected by the tick; a
manual publish at "T5" marks the row published; the tick's update then
still takes effect on the row — whose stored status is `published`, not
`scheduled`, at update time — overwriting the recorded publish time with
"T9", i.e. a second recorded transition to `published` for the same id. -/
theorem C1_counterexample :
    dueJobs storeS "T3" = [jobS]
    ∧ (∀ j ∈ (publishMedia storeS (some "j1") "p" "T5").2, j.status = Status.published)
    ∧ tickFrom (publishMedia storeS (some "j1") "p" "T5").2 (dueJobs storeS "T3") [some "T9"]
        ≠ (publishMedia storeS (some "j1") "p" "T5").2
    ∧ ∃ j ∈ tickFrom (publishMedia storeS (some "j1") "p" "T5").2 (dueJobs storeS "T3")
        [some "T9"], j.id = "j1" ∧ j.scheduledAt = some "T9" := by decide

/-- Claim C1 amended: the tick's status update is keyed on the row id
alone — there is no status-still-scheduled guard.  When no row carries
the id, zero rows are affected and the tick reports no error (the store
comes back unchanged); when a row carries the id it is rewritten to
`published` with the new time regardless of the status stored at update
time, so a manual publish racing a tick yields two recorded `published`
writes rather than at most one. -/
theorem C1_amended_update_keyed_on_id (s : Store) (x pubAt : String) :
    ((∀ j ∈ s, j.id ≠ x) → setPublished s x pubAt = s)
    ∧ ∀ j ∈ s, j.id = x →
        { j with status := Status.published, scheduledAt := some pubAt }
          ∈ setPublished s x pubAt :=
  ⟨setPublished_eq_self, fun _ hj hid => setPublished_mem_of_eq hj hid⟩

/-- Witness for the amended C1 at a concrete published row. -/
theorem C1_amended_witness :
    ((∀ j ∈ storePub, j.id ≠ "p1") → setPublished storePub "p1" "T9" = storePub)
    ∧ ∀ j ∈ storePub, j.id = "p1" →
        { j with status := Status.published, scheduledAt := some "T9" }
          ∈ setPublished storePub "p1" "T9" :=
  C1_amended_update_keyed_on_id storePub "p1" "T9"

/-! Claim C2. -/

/-- Claim C2 is false on the code: a single try/catch wraps the whole
per-row loop (server.js:155-164), so a failure while processing the
first due row ends the tick and the second due row is never attempted.
Concretely: `jobA` and `jobB` are both due at "T3"; the UPDATE for
`jobA` throws; the tick leaves the store untouched and `jobB` — although
due in the same tick — is still `scheduled`, never having been tried. -/
theorem C2_counterexample :
    dueJobs storeAB "T3" = [jobA, jobB]
    ∧ tick storeAB "T3" [none, some "T4"] = storeAB
    ∧ ∃ j ∈ tick storeAB "T3" [none, some "T4"],
        j.id = "b" ∧ j.status = Status.scheduled := by decide

/-- Claim C2 amended: within one tick, a failure while processing a due
row aborts the remainder of that tick: the result equals processing only
the rows before the failure, and every job whose id is not among those
already-processed rows — in particular the failing row and all later due
rows — is left exactly as it was (so a scheduled one stays `scheduled`
and is picked up again by a later tick); the error is caught, ending the
tick without crashing. -/
theorem C2_amended_failure_aborts_tick (s : Store) (rows1 rows2 : List Job)
    (pts1 : List String) (outs2 : List (Option String))
    (hlen : pts1.length = rows1.length) :
    tickFrom s (rows1 ++ rows2) (pts1.map some ++ none :: outs2)
      = tickFrom s rows1 (pts1.map some)
    ∧ ∀ j ∈ s, j.id ∉ rows1.map Job.id →
        j ∈ tickFrom s (rows1 ++ rows2) (pts1.map some ++ none :: outs2) := by
  have h1 := tickFrom_stops_at_failure rows1 pts1 rows2 outs2 s hlen
  refine ⟨h1, fun j hj hni => ?_⟩
  rw [h1]
  exact tickFrom_mem_of_not_mem_ids rows1 (pts1.map some) s j hj hni

/-- Witness for the amended C2: the first row's update succeeds at "T4",
the second row's update fails, so the run equals the one-row run. -/
theorem C2_amended_witness :
    tickFrom storeAB ([jobA] ++ [jobB]) (["T4"].map some ++ none :: [])
      = tickFrom storeAB [jobA] (["T4"].map some)
    ∧ ∀ j ∈ storeAB, j.id ∉ [jobA].map Job.id →
        j ∈ tickFrom storeAB ([jobA] ++ [jobB]) (["T4"].map some ++ none :: []) :=
  C2_amended_failure_aborts_tick storeAB [jobA] [jobB] ["T4"] [] (by decide)

/-! Claim C3. -/

/-- Claim C3 names a code bug: POST /api/publish_media contains no
Publisher invocation and no failure branch at all.  With any valid
creation id it unconditionally answers ok with a fabricated post id and
rewrites every matching row to `published` with `scheduledAt` = the call
time, so a failure of the real publish action can never produce a
`PublishFailed` response nor leave the record unmodified as the spec
requires. -/
theorem C3_publish_now_cannot_fail (s : Store) (cid postSuffix now : String)
    (hb : cid ≠ "") :
    (publishMedia s (some cid) postSuffix now).1 = PublishResp.ok ("post_" ++ postSuffix) now
    ∧ ∀ j ∈ s, j.id = cid →
        { j with status := Status.published, scheduledAt := some now }
          ∈ (publishMedia s (some cid) postSuffix now).2 := by
  have hfal : jsFalsy (some cid) = false := by simp [jsFalsy, hb]
  refine ⟨by simp [publishMedia, hfal], fun j hj hid => ?_⟩
  simpa [publishMedia, hfal] using setPublished_mem_of_eq hj hid

/-- Witness for C3 on the store holding the scheduled job "j1". -/
theorem C3_witness :
    (publishMedia storeS (some "j1") "p" "T5").1 = PublishResp.ok ("post_" ++ "p") "T5"
    ∧ ∀ j ∈ storeS, j.id = "j1" →
        { j with status := Status.published, scheduledAt := some "T5" }
          ∈ (publishMedia storeS (some "j1") "p" "T5").2 :=
  C3_publish_now_cannot_fail storeS "j1" "p" "T5" (by decide)

/-! Claim C4. -/

/-- Claim C4 is false on the code: publish-now and delete are mutating
operations of the queue service, yet neither checks any imageUrl.
Concretely, a publish_media request whose body carries only a
creation_id — imageUrl missing entirely — is not rejected: it answers ok
and rewrites the store; likewise a delete request answers ok and removes
the row. -/
theorem C4_counterexample :
    (publishMedia storeS (some "j1") "p" "T5").1 = PublishResp.ok "post_p" "T5"
    ∧ (publishMedia storeS (some "j1") "p" "T5").2 ≠ storeS
    ∧ (deleteJob storeS "j1").1 = DeleteResp.okTrue
    ∧ (deleteJob storeS "j1").2 ≠ storeS := by decide

/-- Claim C4 amended: only the inserting operations validate the image.
create_media and schedule reject an absent, null or empty imageUrl with
the 400 `Missing imageUrl` error and insert nothing; publish_media
validates only creation_id, rejecting an absent, null or empty one with
400 `Missing creation_id` and leaving the store unchanged; delete
performs no such validation. -/
theorem C4_amended_validation (s : Store) (newId now defaultAt : String)
    (imageUrl caption scheduleTime cid : Option String)
    (himg : jsFalsy imageUrl = true) (hcid : jsFalsy cid = true) :
    createMedia s newId now imageUrl caption = (CreateResp.err ApiError.missingImageUrl, s)
    ∧ schedule s newId now defaultAt imageUrl caption scheduleTime
        = (ScheduleResp.err ApiError.missingImageUrl, s)
    ∧ ∀ postSuffix,
        publishMedia s cid postSuffix now = (PublishResp.err ApiError.missingCreationId, s) := by
  refine ⟨?_, ?_, fun postSuffix => ?_⟩ <;>
    simp [createMedia, schedule, publishMedia, himg, hcid]

/-- Witness for the amended C4: an empty-string imageUrl and an absent
creation_id are both rejected with the store unchanged. -/
theorem C4_amended_witness :
    createMedia storeS "n1" "T7" (some "") none
        = (CreateResp.err ApiError.missingImageUrl, storeS)
    ∧ schedule storeS "n1" "T7" "DFT" (some "") none none
        = (ScheduleResp.err ApiError.missingImageUrl, storeS)
    ∧ ∀ postSuffix,
        publishMedia storeS none postSuffix "T7"
          = (PublishResp.err ApiError.missingCreationId, storeS) :=
  C4_amended_validation storeS "n1" "T7" "DFT" (some "") none none none
    (by decide) (by decide)

/-! Claim C5. -/

/-- Claim C5: every job stored with status `scheduled` and `scheduledAt`
at or before the tick's snapshot time is selected by the tick's query,
each selected row is paired with its per-row publish timestamp, and one
failure-free execution of the tick leaves that row transitioned to
`published` with `scheduledAt` overwritten by that publish timestamp.
`pts` lists the fresh per-row `new Date()` values; the stored ids are
assumed pairwise distinct, as the PRIMARY KEY guarantees. -/
theorem C5_tick_publishes_due (s : Store) (now : String) (pts : List String)
    (hnd : (s.map Job.id).Nodup) (hlen : pts.length = (dueJobs s now).length) :
    (∀ j ∈ s, j.status = Status.scheduled → ∀ t, j.scheduledAt = some t →
      textLe t now = true → j ∈ dueJobs s now)
    ∧ (∀ j ∈ dueJobs s now, ∃ pt, (j, pt) ∈ (dueJobs s now).zip pts)
    ∧ ∀ p ∈ (dueJobs s now).zip pts,
        { p.1 with status := Status.published, scheduledAt := some p.2 }
          ∈ tick s now (pts.map some) := by
  refine ⟨?_, ?_, ?_⟩
  · intro j hj h1 t h2 h3
    exact mem_dueJobs.mpr ⟨hj, isDue_intro h1 h2 h3⟩
  · intro j hj
    exact exists_zip_of_mem (dueJobs s now) pts hlen j hj
  · intro p hp
    exact tickFrom_publishes (dueJobs s now) pts s (dueJobs_ids_nodup hnd)
      (fun r hr => (mem_dueJobs.mp hr).1) p hp

/-- Witness for C5: both stored jobs are due at snapshot "T3" and the
tick publishes them at "T4" and "T5" respectively. -/
theorem C5_witness :
    (∀ j ∈ storeAB, j.status = Status.scheduled → ∀ t, j.scheduledAt = some t →
      textLe t "T3" = true → j ∈ dueJobs storeAB "T3")
    ∧ (∀ j ∈ dueJobs storeAB "T3", ∃ pt, (j, pt) ∈ (dueJobs storeAB "T3").zip ["T4", "T5"])
    ∧ ∀ p ∈ (dueJobs storeAB "T3").zip ["T4", "T5"],
        { p.1 with status := Status.published, scheduledAt := some p.2 }
          ∈ tick storeAB "T3" (["T4", "T5"].map some) :=
  C5_tick_publishes_due storeAB "T3" ["T4", "T5"] (by decide) (by decide)

/-! Claim C6. -/

/-- Claim C6 is false on the code: makeId (server.js:54) is a memoryless
`Math.random` draw, so nothing prevents a draw from recurring once the
row holding it is gone.  Concretely: a create draws "abc" and succeeds,
the job is deleted, and a later create draws "abc" again and succeeds —
two distinct create operations over the lifetime of the store assign the
same id, which is thereby reused after deletion. -/
theorem C6_counterexample :
    (createMedia [] "abc" "T1" (some "u") none).1 = CreateResp.ok "abc"
    ∧ (createMedia (deleteJob (createMedia [] "abc" "T1" (some "u") none).2 "abc").2
        "abc" "T2" (some "u") none).1 = CreateResp.ok "abc" := by decide

/-- Claim C6 amended: id uniqueness holds only among coexisting rows and
only because the PRIMARY KEY rejects the insert: drawing an id that is
still live makes the INSERT throw, answered as a 500 db error with
nothing inserted, while a draw not currently live inserts the row and
keeps the stored ids pairwise distinct; after a deletion the same id can
be assigned again (see the counterexample). -/
theorem C6_amended_ids_unique_while_live (s : Store) (newId now : String)
    (imageUrl caption : Option String) (himg : jsFalsy imageUrl = false) :
    (hasId s newId = true →
      createMedia s newId now imageUrl caption = (CreateResp.err ApiError.dbError, s))
    ∧ (hasId s newId = false →
        (createMedia s newId now imageUrl caption).1 = CreateResp.ok newId
        ∧ ((s.map Job.id).Nodup →
            (((createMedia s newId now imageUrl caption).2).map Job.id).Nodup)) := by
  constructor
  · intro hdup
    simp [createMedia, himg, hdup]
  · intro hfresh
    have hni : newId ∉ s.map Job.id := by
      intro hmem
      obtain ⟨j, hj, hjid⟩ := List.mem_map.mp hmem
      exact hasId_eq_false_iff.mp hfresh j hj hjid
    constructor
    · simp [createMedia, himg, hfresh]
    · intro hnd
      have hdisj : (s.map Job.id).Disjoint [newId] := by
        intro a ha hb
        simp only [List.mem_singleton] at hb
        exact hni (hb ▸ ha)
      have hres := List.Nodup.append hnd (List.nodup_singleton newId) hdisj
      simpa [createMedia, himg, hfresh] using hres

/-- Witness for the amended C6: re-drawing the live id "a" is rejected
with a db error and nothing inserted. -/
theorem C6_amended_witness :
    (hasId storeAB "a" = true →
      createMedia storeAB "a" "T7" (some "u") none = (CreateResp.err ApiError.dbError, storeAB))
    ∧ (hasId storeAB "a" = false →
        (createMedia storeAB "a" "T7" (some "u") none).1 = CreateResp.ok "a"
        ∧ ((storeAB.map Job.id).Nodup →
            (((createMedia storeAB "a" "T7" (some "u") none).2).map Job.id).Nodup)) :=
  C6_amended_ids_unique_while_live storeAB "a" "T7" (some "u") none (by decide)

/-! Claim C7. -/

/-- Claim C7: the delete operation always answers ok, whatever the prior
status of the record and also when no record with the id exists; the id
is absent from subsequent list-queue output; and deleting the same id a
second time answers ok again and changes nothing further. -/
theorem C7_delete_unconditional_idempotent (s : Store) (x : String) :
    (deleteJob s x).1 = DeleteResp.okTrue
    ∧ (∀ j ∈ listQueue (deleteJob s x).2, j.id ≠ x)
    ∧ deleteJob (deleteJob s x).2 x = deleteJob s x := by
  refine ⟨rfl, ?_, ?_⟩
  · intro j hj
    have h2 := (List.mem_filter.mp (mem_listQueue.mp hj)).2
    simpa using h2
  · simp [deleteJob, List.filter_filter]

/-- Witness for C7 at the store of two scheduled jobs. -/
theorem C7_witness :
    (deleteJob storeAB "a").1 = DeleteResp.okTrue
    ∧ (∀ j ∈ listQueue (deleteJob storeAB "a").2, j.id ≠ "a")
    ∧ deleteJob (deleteJob storeAB "a").2 "a" = deleteJob storeAB "a" :=
  C7_delete_unconditional_idempotent storeAB "a"

/-! Claim C8. -/

/-- Claim C8: publish-now on an id no row carries still answers ok with
a freshly fabricated post id and the publish time, and the store comes
back unchanged — the zero-row UPDATE is not reported as an error. -/
theorem C8_publish_absent_id_ok (s : Store) (cid postSuffix now : String)
    (hb : cid ≠ "") (habs : ∀ j ∈ s, j.id ≠ cid) :
    publishMedia s (some cid) postSuffix now
      = (PublishResp.ok ("post_" ++ postSuffix) now, s) := by
  have hfal : jsFalsy (some cid) = false := by simp [jsFalsy, hb]
  simp [publishMedia, hfal, setPublished_eq_self habs]

/-- Witness for C8: id "zzz" is absent from the two-job store. -/
theorem C8_witness :
    publishMedia storeAB (some "zzz") "p7" "T9"
      = (PublishResp.ok ("post_" ++ "p7") "T9", storeAB) :=
  C8_publish_absent_id_ok storeAB "zzz" "p7" "T9" (by decide) (by decide)

/-! Claim C9. -/

/-- Claim C9: publish-now on a present id answers ok and rewrites that
row to status `published` with `scheduledAt` = the call time, with no
condition on the row's prior status — in particular a row that is
already `published` gets its recorded publish time overwritten — while
rows with other ids are left unchanged. -/
theorem C9_publish_overwrites_any_status (s : Store) (cid postSuffix now : String)
    (j : Job) (hb : cid ≠ "") (hj : j ∈ s) (hid : j.id = cid) :
    (publishMedia s (some cid) postSuffix now).1 = PublishResp.ok ("post_" ++ postSuffix) now
    ∧ { j with status := Status.published, scheduledAt := some now }
        ∈ (publishMedia s (some cid) postSuffix now).2
    ∧ ∀ j2 ∈ s, j2.id ≠ cid → j2 ∈ (publishMedia s (some cid) postSuffix now).2 := by
  have hfal : jsFalsy (some cid) = false := by simp [jsFalsy, hb]
  refine ⟨by simp [publishMedia, hfal], ?_, ?_⟩
  · simpa [publishMedia, hfal] using setPublished_mem_of_eq hj hid
  · intro j2 hj2 hne
    simpa [publishMedia, hfal] using setPublished_mem_of_ne hj2 hne

/-- Witness for C9 at a job that is already published with recorded time
"T5": the call at "T9" overwrites the recorded time. -/
theorem C9_witness :
    (publishMedia storePub (some "p1") "q" "T9").1 = PublishResp.ok ("post_" ++ "q") "T9"
    ∧ { jobPub with status := Status.published, scheduledAt := some "T9" }
        ∈ (publishMedia storePub (some "p1") "q" "T9").2
    ∧ ∀ j2 ∈ storePub, j2.id ≠ "p1" → j2 ∈ (publishMedia storePub (some "p1") "q" "T9").2 :=
  C9_publish_overwrites_any_status storePub "p1" "q" "T9" jobPub
    (by decide) (by decide) (by decide)

/-! Claim C10. -/

/-- Claim C10 is false on the code for the schedule operation: JS `||`
treats the empty string as falsy, so a schedule request submitting
caption null and scheduleTime "" has its scheduleTime replaced by the
now-plus-one-hour default instead of being stored as given. -/
theorem C10_counterexample :
    (schedule [] "id1" "T1" "DFT" (some "u") none (some "")).1 = ScheduleResp.ok "id1" "DFT"
    ∧ ∀ j ∈ (schedule [] "id1" "T1" "DFT" (some "u") none (some "")).2,
        j.scheduledAt = some "DFT" ∧ j.scheduledAt ≠ some "" := by decide

/-- Claim C10 amended: an omitted, null (or empty) caption is stored as
the empty string; the validated — hence nonempty — imageUrl is stored as
given; and the submitted scheduleTime is stored as given when nonempty,
while an absent, null or empty scheduleTime is replaced by the
now-plus-one-hour default. -/
theorem C10_amended_caption_empty_string (s : Store) (newId now defaultAt iu : String)
    (caption scheduleTime : Option String)
    (hiu : iu ≠ "") (hfresh : hasId s newId = false) :
    (∃ j ∈ (createMedia s newId now (some iu) caption).2,
      j.id = newId ∧ j.imageUrl = iu ∧ j.caption = jsOr caption ""
        ∧ j.status = Status.created ∧ j.createdAt = now
        ∧ (caption = none → j.caption = ""))
    ∧ ∃ j ∈ (schedule s newId now defaultAt (some iu) caption scheduleTime).2,
      j.id = newId ∧ j.imageUrl = iu ∧ j.caption = jsOr caption ""
        ∧ j.status = Status.scheduled ∧ j.createdAt = now
        ∧ j.scheduledAt = some (jsOr scheduleTime defaultAt)
        ∧ (caption = none → j.caption = "")
        ∧ ∀ t, scheduleTime = some t → t ≠ "" → j.scheduledAt = some t := by
  have himg : jsFalsy (some iu) = false := by simp [jsFalsy, hiu]
  constructor
  · have hmem : ({ id := newId, imageUrl := Option.getD (some iu) "",
                   caption := jsOr caption "", scheduledAt := none,
                   status := Status.created,
                   createdAt := now } : Job) ∈ (createMedia s newId now (some iu) caption).2 := by
      simp [createMedia, himg, hfresh]
    exact ⟨_, hmem, rfl, rfl, rfl, rfl, rfl, fun hc => by simp [jsOr, hc]⟩
  · have hmem : ({ id := newId, imageUrl := Option.getD (some iu) "",
                   caption := jsOr caption "",
                   scheduledAt := some (jsOr scheduleTime defaultAt),
                   status := Status.scheduled, createdAt := now } : Job)
        ∈ (schedule s newId now defaultAt (some iu) caption scheduleTime).2 := by
      simp [schedule, himg, hfresh]
    refine ⟨_, hmem, rfl, rfl, rfl, rfl, rfl, rfl, fun hc => by simp [jsOr, hc], ?_⟩
    intro t ht hne
    simp [jsOr, ht, hne]

/-- Witness for the amended C10: caption omitted, scheduleTime "T7". -/
theorem C10_amended_witness :
    (∃ j ∈ (createMedia [] "id1" "T1" (some "u") none).2,
      j.id = "id1" ∧ j.imageUrl = "u" ∧ j.caption = jsOr none ""
        ∧ j.status = Status.created ∧ j.createdAt = "T1"
        ∧ (none = (none : Option String) → j.caption = ""))
    ∧ ∃ j ∈ (schedule [] "id1" "T1" "DFT" (some "u") none (some "T7")).2,
      j.id = "id1" ∧ j.imageUrl = "u" ∧ j.caption = jsOr none ""
        ∧ j.status = Status.scheduled ∧ j.createdAt = "T1"
        ∧ j.scheduledAt = some (jsOr (some "T7") "DFT")
        ∧ (none = (none : Option String) → j.caption = "")
        ∧ ∀ t, (some "T7" : Option String) = some t → t ≠ "" → j.scheduledAt = some t :=
  C10_amended_caption_empty_string [] "id1" "T1" "DFT" "u" none (some "T7")
    (by decide) (by decide)

end InstaDashboard
